import Mathlib

/-!
Verification development for the dbt2looker validation-and-resolution pipeline
(`dbt2looker/models.py` and `dbt2looker/parser.py`).

Conventions of the embedding:
* Python `dict`s become association lists `List (String × α)` (insertion
  order preserved, keys unique in well-formed inputs); `dict.get` becomes
  `List.lookup`-style lookup.
* pydantic `Optional[T]` fields (implicit default `None` in pydantic v1)
  become `Option T` with default `none`; fields with explicit defaults keep
  those defaults.
* pydantic `Union[A, B]` node types become a sum (inductive with two
  constructors), first constructor tried first as pydantic does.
* Python exceptions become `Except ResolveError`; the distinct Python
  exception classes (`SystemExit`, raised `Exception`, an uncaught
  `AttributeError` from dereferencing `None`, and pydantic's `ValueError`
  on assigning to an unknown field) are distinct constructors.
* Python's in-place object mutation (`model_node.create_explorer = False`)
  is made explicit by threading the manifest node mapping through the
  step that performs it, returning the updated mapping.
* Python set accumulation (`set.add`) is modelled as a deduplicating list
  in insertion order (CPython set iteration order is unspecified; the
  claims do not depend on that order).
-/

/-- Python exception classes that the pipeline can raise, kept distinct. -/
inductive ResolveError where
  | systemExit (msg : String)
  | exception (msg : String)
  | attributeError (msg : String)
  | valueError (msg : String)
deriving Repr, DecidableEq

/-! ## models.py : enums -/

/-- `SupportedDbtAdapters` in models.py. -/
inductive SupportedDbtAdapters where
  | bigquery | postgres | redshift | snowflake | spark
deriving Repr, DecidableEq

/-- `LookerAggregateMeasures` in models.py. -/
inductive LookerAggregateMeasures where
  | average | average_distinct | count | count_distinct | list
  | max | median | median_distinct | min | sum | sum_distinct
deriving Repr, DecidableEq

/-- `LookerJoinType` in models.py. -/
inductive LookerJoinType where
  | left_outer | full_outer | inner | cross
deriving Repr, DecidableEq

/-- `LookerJoinRelationship` in models.py. -/
inductive LookerJoinRelationship where
  | many_to_one | many_to_many | one_to_many | one_to_one
deriving Repr, DecidableEq

/-- `LookerValueFormatName` in models.py. -/
inductive LookerValueFormatName where
  | decimal_0 | decimal_1 | decimal_2 | decimal_3 | decimal_4
  | usd_0 | usd | gbp_0 | gbp | eur_0 | eur | id
  | percent_0 | percent_1 | percent_2 | percent_3 | percent_4
deriving Repr, DecidableEq

/-! ## models.py : measure / dimension / meta blocks -/

/-- `Dbt2LookerMeasure` in models.py.  A Python `Dict[str, str]` filter entry
is an association list; `len(f)` is its length. -/
structure Dbt2LookerMeasure where
  type : LookerAggregateMeasures
  filters : Option (List (List (String × String))) := some []
  description : Option String := none
  sql : Option String := none
  value_format_name : Option LookerValueFormatName := none
deriving Repr, DecidableEq

/-- The `filters_are_singular_dicts` validator of `Dbt2LookerMeasure`:
every filter dict must have exactly one key. -/
def filters_are_singular_dicts (v : Option (List (List (String × String)))) :
    Except ResolveError (Option (List (List (String × String)))) :=
  match v with
  | none => Except.ok none
  | some fs =>
    if fs.all (fun f => f.length == 1) then Except.ok (some fs)
    else Except.error (.valueError "Multiple filter names provided for a single filter in measure block")

/-- Construction of a `Dbt2LookerMeasure` (pydantic runs the `filters`
validator at construction time). -/
def mkDbt2LookerMeasure (type : LookerAggregateMeasures)
    (filters : Option (List (List (String × String))))
    (description : Option String) (sql : Option String)
    (value_format_name : Option LookerValueFormatName) :
    Except ResolveError Dbt2LookerMeasure := do
  let filters ← filters_are_singular_dicts filters
  Except.ok { type, filters, description, sql, value_format_name }

/-- `Dbt2LookerDimension` in models.py. -/
structure Dbt2LookerDimension where
  enabled : Option Bool := some true
  name : Option String := none
  sql : Option String := none
  description : Option String := none
  value_format_name : Option LookerValueFormatName := none
deriving Repr, DecidableEq

/-- `Dbt2InnerLookerMeta` in models.py. -/
structure Dbt2InnerLookerMeta where
  measures : Option (List (String × Dbt2LookerMeasure)) := some []
  measure : Option (List (String × Dbt2LookerMeasure)) := some []
  metrics : Option (List (String × Dbt2LookerMeasure)) := some []
  metric : Option (List (String × Dbt2LookerMeasure)) := some []
  dimension : Option Dbt2LookerDimension := some {}
deriving Repr, DecidableEq

/-- `Dbt2LookerMeta` in models.py. -/
structure Dbt2LookerMeta where
  looker : Option Dbt2InnerLookerMeta := some {}
  measures : Option (List (String × Dbt2LookerMeasure)) := some []
  measure : Option (List (String × Dbt2LookerMeasure)) := some []
  metrics : Option (List (String × Dbt2LookerMeasure)) := some []
  metric : Option (List (String × Dbt2LookerMeasure)) := some []
  dimension : Option Dbt2LookerDimension := some {}
deriving Repr, DecidableEq

/-- `DbtModelColumnMeta(Dbt2LookerMeta): pass` in models.py. -/
abbrev DbtModelColumnMeta := Dbt2LookerMeta

/-- `DbtModelColumn` in models.py. -/
structure DbtModelColumn where
  name : String
  description : String
  data_type : Option String := none
  meta : DbtModelColumnMeta
deriving Repr, DecidableEq

/-- `DbtNode` in models.py (the catch-all manifest node base). -/
structure DbtNode where
  unique_id : String
  resource_type : String
deriving Repr, DecidableEq

/-- `Dbt2LookerExploreJoin` in models.py. -/
structure Dbt2LookerExploreJoin where
  join : String
  type : Option LookerJoinType := some .left_outer
  relationship : Option LookerJoinRelationship := some .many_to_one
  sql_on : String
deriving Repr, DecidableEq

/-- `Dbt2MetaLookerModelMeta` in models.py: within a `looker` block,
`main_model` is a required field and `joins` defaults to `[]`. -/
structure Dbt2MetaLookerModelMeta where
  joins : Option (List Dbt2LookerExploreJoin) := some []
  main_model : String
deriving Repr, DecidableEq

/-- `Dbt2LookerModelMeta` in models.py: `looker: Optional[...]` has no
explicit default, so pydantic v1 gives it the implicit default `None`. -/
structure Dbt2LookerModelMeta where
  looker : Option Dbt2MetaLookerModelMeta := none
  joins : Option (List Dbt2LookerExploreJoin) := some []
deriving Repr, DecidableEq

/-- `DbtModelMeta(Dbt2LookerModelMeta)` in models.py, adding `primary_key`. -/
structure DbtModelMeta extends Dbt2LookerModelMeta where
  primary_key : Option String := none
deriving Repr, DecidableEq

/-! ## models.py : manifest nodes -/

/-- `DbtModel` in models.py.  `resource_type` is the literal `"model"` and is
therefore not stored as a field; see `ManifestNode.resource_type`. -/
structure DbtModel where
  unique_id : String
  relation_name : String
  db_schema : String
  name : String
  description : String
  columns : List (String × DbtModelColumn)
  tags : List String
  meta : DbtModelMeta
  create_explorer : Bool := true
deriving Repr, DecidableEq

/-- Python's `str.lower()` (ASCII case folding), modelled char-wise. -/
def str_lower (s : String) : String := String.mk (s.data.map Char.toLower)

/-- The `case_insensitive_column_names` validator of `DbtModel`: lower-case
every key of the column map and the `name` field of every column. -/
def case_insensitive_column_names (v : List (String × DbtModelColumn)) :
    List (String × DbtModelColumn) :=
  v.map (fun kv => (str_lower kv.1, { kv.2 with name := str_lower kv.2.name }))

/-- Construction of a `DbtModel` (pydantic runs the `columns` validator at
construction time; it cannot fail, it only normalizes). -/
def mkDbtModel (unique_id relation_name db_schema name description : String)
    (columns : List (String × DbtModelColumn)) (tags : List String)
    (meta : DbtModelMeta) (create_explorer : Bool := true) : DbtModel :=
  { unique_id, relation_name, db_schema, name, description,
    columns := case_insensitive_column_names columns,
    tags, meta, create_explorer }

/-- `DbtExposureDependsOn` in models.py. -/
structure DbtExposureDependsOn where
  macros : List String
  nodes : List String
deriving Repr, DecidableEq

/-- `DbtExposure` in models.py.  `resource_type` is the literal
`"exposure"` and is not stored as a field. -/
structure DbtExposure where
  unique_id : String
  name : String
  description : String
  tags : List String
  depends_on : DbtExposureDependsOn
  meta : DbtModelMeta
  original_file_path : String
  path : String
  root_path : String
deriving Repr, DecidableEq

/-- A value of `Dict[str, Union[DbtModel, DbtNode]]` in `DbtManifest.nodes`:
pydantic tries `DbtModel` first, falling back to the base `DbtNode`. -/
inductive ManifestNode where
  | model (m : DbtModel)
  | node (n : DbtNode)
deriving Repr, DecidableEq

/-- `resource_type` of a manifest node: the `DbtModel` variant carries the
literal `"model"`. -/
def ManifestNode.resource_type : ManifestNode → String
  | .model _ => "model"
  | .node n => n.resource_type

/-- A value of `Dict[str, Union[DbtExposure, DbtNode]]` in
`DbtManifest.exposures`. -/
inductive ExposureNode where
  | exposure (e : DbtExposure)
  | node (n : DbtNode)
deriving Repr, DecidableEq

/-- `DbtManifestMetadata` in models.py (its `adapter_type` validator is only
relevant at construction; the resolver merely reads the string back). -/
structure DbtManifestMetadata where
  adapter_type : String
deriving Repr, DecidableEq

/-- `DbtManifest` in models.py. -/
structure DbtManifest where
  nodes : List (String × ManifestNode)
  exposures : List (String × ExposureNode)
  metadata : DbtManifestMetadata
deriving Repr, DecidableEq

/-! ## models.py : catalog -/

/-- `DbtCatalogNodeMetadata` in models.py. -/
structure DbtCatalogNodeMetadata where
  type : String
  db_schema : String
  name : String
  comment : Option String := none
  owner : Option String := none
deriving Repr, DecidableEq

/-- `DbtCatalogNodeColumn` in models.py. -/
structure DbtCatalogNodeColumn where
  type : String
  comment : Option String := none
  index : Int
  name : String
deriving Repr, DecidableEq

/-- `DbtCatalogNode` in models.py. -/
structure DbtCatalogNode where
  metadata : DbtCatalogNodeMetadata
  columns : List (String × DbtCatalogNodeColumn)
deriving Repr, DecidableEq

/-- The `case_insensitive_column_names` validator of `DbtCatalogNode`. -/
def catalog_case_insensitive_column_names
    (v : List (String × DbtCatalogNodeColumn)) :
    List (String × DbtCatalogNodeColumn) :=
  v.map (fun kv => (str_lower kv.1, { kv.2 with name := str_lower kv.2.name }))

/-- Construction of a `DbtCatalogNode` (the validator runs at construction). -/
def mkDbtCatalogNode (metadata : DbtCatalogNodeMetadata)
    (columns : List (String × DbtCatalogNodeColumn)) : DbtCatalogNode :=
  { metadata, columns := catalog_case_insensitive_column_names columns }

/-- `DbtCatalog` in models.py. -/
structure DbtCatalog where
  nodes : List (String × DbtCatalogNode)
deriving Repr, DecidableEq

example : (({} : DbtModelMeta).looker) = none := rfl
example : (filters_are_singular_dicts (some [[("a", "b")], [("c", "d")]])).isOk = true := rfl
example : (filters_are_singular_dicts (some [[("a", "b"), ("c", "d")]])).isOk = false := rfl

/-! ## generator.py : the reference extractor -/

/-- Consume characters up to (and including) the closing quote `q`,
returning the quoted content and the remainder; `none` if `q` never occurs. -/
def takeTillQuote (q : Char) : List Char → Option (List Char × List Char)
  | [] => none
  | c :: cs =>
    if c = q then some ([], cs)
    else (takeTillQuote q cs).map (fun p => (c :: p.1, p.2))

/-- Drop leading space characters. -/
def dropSpaces : List Char → List Char
  | ' ' :: cs => dropSpaces cs
  | cs => cs

/-- Parse a quoted string (single or double quotes) at the head of the
input. -/
def parseQuotedArg : List Char → Option (List Char × List Char)
  | c :: cs =>
    if c = '\'' ∨ c = '"' then takeTillQuote c cs else none
  | [] => none

/-- Parse the argument list of one `ref(...)` occurrence, the input starting
just after the opening parenthesis: one or two quoted arguments, the model
name being the last; returns the model name and the remainder after `)`. -/
def parseRefArgs (s : List Char) : Option (String × List Char) := do
  let s := dropSpaces s
  let (arg1, s) ← parseQuotedArg s
  let s := dropSpaces s
  match s with
  | ')' :: rest => some (String.mk arg1, rest)
  | ',' :: s => do
    let s := dropSpaces s
    let (arg2, s) ← parseQuotedArg s
    let s := dropSpaces s
    match s with
    | ')' :: rest => some (String.mk arg2, rest)
    | _ => none
  | _ => none

/-- Scan for every non-overlapping `ref(...)` occurrence, left to right.
The fuel starts at the input length; every step strictly consumes input, so
the fuel never runs out on the initial call. -/
def extractRefsAux (fuel : Nat) (s : List Char) : List String :=
  match fuel with
  | 0 => []
  | fuel + 1 =>
    match s with
    | 'r' :: 'e' :: 'f' :: '(' :: rest =>
      match parseRefArgs rest with
      | some (name, rest') => name :: extractRefsAux fuel rest'
      | none => extractRefsAux fuel ('e' :: 'f' :: '(' :: rest)
    | _ :: cs => extractRefsAux fuel cs
    | [] => []

/-- Modelled from the spec: `_extract_all_refs` is defined in
`dbt2looker/generator.py`, which is not among the provided sources; only its
callers in `parser.py` are.  Per the spec (§4.3) it takes a string expected
to contain occurrences of `ref('model_name')` or
`ref('project_name','model_name')` (single- or double-quoted), returns the
ordered left-to-right list of the last argument of each non-overlapping
occurrence, and returns a "no references found" sentinel (`none`) when the
string contains zero occurrences. -/
def extract_all_refs (s : String) : Option (List String) :=
  let refs := extractRefsAux s.length s.data
  if refs.isEmpty then none else some refs

example : extract_all_refs "ref('orders')" = some ["orders"] := by decide
example : extract_all_refs "\x7bref('a').id\x7d = \x7bref(\"proj\",\"b\")\x7d.id" = some ["a", "b"] := by decide
example : extract_all_refs "orders.id = customers.id" = none := by decide

/-! ## parser.py : schema validation (validate_manifest / raise_error_context)

The `jsonschema` library is an external collaborator: its
`Draft7Validator.iter_errors` yields a sequence of validation errors, each
carrying a message, a document path, a schema path, and (for `oneOf`/`anyOf`
mismatches) a list of nested sub-errors in `context`.  The embedding takes
that sequence as input. -/

/-- A `jsonschema.ValidationError`: message, `absolute_path` (dotted document
path components), `schema_path` (used as sort key for sub-errors), and the
nested `context` sub-errors. -/
inductive ValidationError where
  | mk (message : String) (absolute_path : List String)
       (schema_path : List Nat) (context : List ValidationError)

def ValidationError.message : ValidationError → String
  | .mk m _ _ _ => m

def ValidationError.absolute_path : ValidationError → List String
  | .mk _ a _ _ => a

def ValidationError.schema_path : ValidationError → List Nat
  | .mk _ _ s _ => s

def ValidationError.context : ValidationError → List ValidationError
  | .mk _ _ _ c => c

/-- Lexicographic comparison of schema paths (Python compares the
`schema_path` deques elementwise). -/
def pathLe (a b : List Nat) : Bool :=
  match a, b with
  | [], _ => true
  | _ :: _, [] => false
  | x :: xs, y :: ys => if x < y then true else if y < x then false else pathLe xs ys

/-- The trailing `logging.error` line of `raise_error_context`
(parser.py lines 28–29).  Python's `for error in sorted(error.context, ...)`
on line 26 REBINDS the name `error`, so after a non-empty loop the trailing
line reads the last sorted sub-error's `absolute_path` and `message`, not
the function's own argument; only when the sorted context is empty does the
line report the argument's own path and message. -/
def error_context_line (offset msg : String) (apath : List String)
    (sorted_context : List ValidationError) : String :=
  match sorted_context.getLast? with
  | none =>
    s!"{offset}Error in manifest at " ++ String.intercalate "." apath
      ++ s!": {msg}"
  | some rebound =>
    s!"{offset}Error in manifest at "
      ++ String.intercalate "." rebound.absolute_path
      ++ ": " ++ rebound.message

/-- `raise_error_context` in parser.py (lines 25–29), returning the log
lines it emits: recursively report the sub-errors sorted by schema path
(indented two more spaces), then one trailing line.  Because the loop
variable shadows the `error` parameter, that trailing line duplicates the
last sorted sub-error's path/message whenever the context is non-empty
(see `error_context_line`), so a violation with sub-causes never gets its
own message reported. -/
def raise_error_context (error : ValidationError) (offset : String) :
    List String :=
  match error with
  | .mk msg apath _spath ctx =>
    ((ctx.mergeSort (fun a b => pathLe a.schema_path b.schema_path)).attach.map
      (fun c => raise_error_context c.val (offset ++ "  "))).flatten
      ++ [error_context_line offset msg apath
            (ctx.mergeSort (fun a b => pathLe a.schema_path b.schema_path))]
termination_by sizeOf error
decreasing_by
  have hmem := List.mem_mergeSort.mp c.property
  have := List.sizeOf_lt_of_mem hmem
  simp only [ValidationError.mk.sizeOf_spec]
  omega

/-- `validate_manifest` in parser.py: iterate every error the validator
yields, report each (with nested causes) via `raise_error_context`, and fail
with the aggregate `ValueError` exactly when at least one error was seen;
return `true` otherwise.  The first component is the emitted log. -/
def validate_manifest (errors : List ValidationError) :
    List String × Except ResolveError Bool :=
  let log := (errors.map (fun e => raise_error_context e "")).flatten
  if errors.isEmpty then (log, Except.ok true)
  else (log, Except.error (.valueError "Failed to parse dbt manifest.json"))

/-- A leaf violation (empty context), as a `oneOf` branch mismatch would
nest it. -/
def childTypeViolation : ValidationError :=
  .mk "child type mismatch" ["models", "ghost"] [1] []

/-- A violation carrying one nested sub-cause — the shape a `oneOf`/`anyOf`
mismatch produces. -/
def parentOneOfViolation : ValidationError :=
  .mk "parent oneOf mismatch" ["models"] [0] [childTypeViolation]

/-! ## parser.py : parsing models and exposures -/

/-- Association-list lookup standing for Python `dict.get` (keys of a Python
dict are unique, so the first match is the only match). -/
def alistGet {α : Type} (l : List (String × α)) (key : String) : Option α :=
  match l with
  | [] => none
  | kv :: rest => if kv.1 == key then some kv.2 else alistGet rest key

/-- `tags_match` in parser.py, applied to a typed `DbtModel` whose `tags`
is a list of strings: Python's `query_tag in model.tags`. -/
def tags_match (query_tag : String) (model : DbtModel) : Bool :=
  model.tags.contains query_tag

/-- `tags_match` in parser.py as applied (duck-typed) to a `DbtExposure`. -/
def tags_match_exposure (query_tag : String) (exposure : DbtExposure) : Bool :=
  exposure.tags.contains query_tag

/-- `parse_models` in parser.py: select the manifest nodes whose
`resource_type` is `"model"`; any selected node that fell back to the base
`DbtNode` variant has no `name` attribute and causes `SystemExit('Failed')`;
otherwise return all models, filtered by the tag when one is given. -/
def parse_models (manifest : DbtManifest) (tag : Option String) :
    Except ResolveError (List DbtModel) :=
  let all_nodes := (manifest.nodes.map Prod.snd).filter
    (fun n => n.resource_type == "model")
  if all_nodes.any (fun n => match n with | .node _ => true | .model _ => false) then
    Except.error (.systemExit "Failed")
  else
    let all_models := all_nodes.filterMap
      (fun n => match n with | .model m => some m | .node _ => none)
    match tag with
    | none => Except.ok all_models
    | some t => Except.ok (all_models.filter (fun m => tags_match t m))

/-- `parse_exposures` in parser.py: same shape as `parse_models`, over the
manifest's `exposures` mapping (no `resource_type` filter there). -/
def parse_exposures (manifest : DbtManifest) (tag : Option String) :
    Except ResolveError (List DbtExposure) :=
  let all_nodes := manifest.exposures.map Prod.snd
  if all_nodes.any (fun n => match n with | .node _ => true | .exposure _ => false) then
    Except.error (.systemExit "Failed")
  else
    let all_exposures := all_nodes.filterMap
      (fun n => match n with | .exposure e => some e | .node _ => none)
    match tag with
    | none => Except.ok all_exposures
    | some t => Except.ok (all_exposures.filter (fun e => tags_match_exposure t e))

/-! ## parser.py : exposure-driven model discovery (parse_typed_models, step 5) -/

/-- Python `set.add`, determinized to insertion order. -/
def set_add (s : List String) (x : String) : List String :=
  if s.contains x then s else s ++ [x]

/-- The body of the `for exposure in typed_dbt_exposures` loop of
`parse_typed_models` (parser.py lines 107–121), threading the accumulated
`exposure_model_views` set.  Dereferencing `exposure.meta.looker.main_model`
when `meta.looker` is `None` is Python's uncaught `AttributeError`. -/
def collect_from_exposure (views : List String) (exposure : DbtExposure) :
    Except ResolveError (List String) :=
  match exposure.meta.looker with
  | none => Except.error (.attributeError "NoneType object has no attribute main_model")
  | some looker =>
    match extract_all_refs looker.main_model with
    | none => Except.error (.exception
        s!"Exposure main_model {looker.main_model} should be ref('model_name')")
    | some [] => Except.error (.exception
        s!"Exposure main_model {looker.main_model} should be ref('model_name')")
    | some (first :: _) =>
      let views := set_add views first
      match looker.joins with
      | none => Except.ok views
      | some joins =>
        if joins.isEmpty then Except.ok views
        else
          match joins.find? (fun j => extract_all_refs j.sql_on == none) with
          | some j => Except.error (.exception
              s!"Exposure join.sql_on {j.sql_on} should be ref('model_name')")
          | none =>
            let items := (joins.map (fun j => (extract_all_refs j.sql_on).getD [])).flatten
            Except.ok (items.foldl set_add views)

/-- The accumulation of `exposure_model_views` over all (tag-filtered)
exposures, parser.py lines 106–121. -/
def collect_exposure_model_views (exposures : List DbtExposure) :
    Except ResolveError (List String) :=
  exposures.foldlM collect_from_exposure []

/-- The qualified manifest key `model.<project>.<model_name>` built at
parser.py line 124 (the f-string `f"model.{dbt_project_name}.{model}"`). -/
def model_lookup_key (dbt_project_name model : String) : String :=
  "model." ++ dbt_project_name ++ "." ++ model

/-- Replace the node stored under `key` (Python's in-place object mutation
seen through the containing dict). -/
def setManifestNode (nodes : List (String × ManifestNode)) (key : String)
    (n : ManifestNode) : List (String × ManifestNode) :=
  nodes.map (fun kv => if kv.1 == key then (kv.1, n) else kv)

/-- The `for model in exposure_model_views` loop of `parse_typed_models`
(parser.py lines 123–130): look each discovered name up under its qualified
key; a missing node raises; on a hit the node's `create_explorer` flag is
set to `False` **in place** (the same object sits in the manifest's node
mapping and is appended to `exposure_nodes`), which this embedding renders
by returning the updated node mapping alongside the appended list.
Assigning to `create_explorer` on a base `DbtNode` fallback is pydantic's
`ValueError` for an unknown field.  This is one loop iteration; the loop
itself is `resolve_exposure_nodes`. -/
def resolve_one_exposure_model (dbt_project_name : String)
    (acc : DbtManifest × List DbtModel) (v : String) :
    Except ResolveError (DbtManifest × List DbtModel) :=
  let key := model_lookup_key dbt_project_name v
  match alistGet acc.1.nodes key with
  | none => Except.error (.exception s!"Exposure join.sql_on model {key} missing")
  | some (ManifestNode.node _) => Except.error
      (.valueError "DbtNode object has no field create_explorer")
  | some (ManifestNode.model m) =>
    let m' := { m with create_explorer := false }
    Except.ok
      ({ acc.1 with nodes := setManifestNode acc.1.nodes key (ManifestNode.model m') },
       acc.2 ++ [m'])

/-- The whole lines 123–130 loop: fold `resolve_one_exposure_model` over the
discovered names, starting from the parsed manifest and an empty
`exposure_nodes` list. -/
def resolve_exposure_nodes (manifest : DbtManifest) (views : List String)
    (dbt_project_name : String) :
    Except ResolveError (DbtManifest × List DbtModel) :=
  views.foldlM (resolve_one_exposure_model dbt_project_name) (manifest, [])

/-! ## parser.py : catalog enrichment -/

/-- `get_column_type_from_catalog` in parser.py. -/
def get_column_type_from_catalog (catalog_nodes : List (String × DbtCatalogNode))
    (model_id : String) (column_name : String) : Option String :=
  match alistGet catalog_nodes model_id with
  | none => none
  | some node =>
    match alistGet node.columns column_name with
    | none => none
    | some column => some column.type

/-- The per-model copy-with-update of parser.py lines 152–157: a fresh model
value whose column map is rebuilt keyed by each column's `name`, every
column copy-updated with the catalog `data_type`. -/
def enrich_model (catalog_nodes : List (String × DbtCatalogNode))
    (model : DbtModel) : DbtModel :=
  { model with columns := model.columns.map (fun kv =>
      (kv.2.name, { kv.2 with data_type :=
        get_column_type_from_catalog catalog_nodes model.unique_id kv.2.name })) }

/-- The warnings emitted by the `Check catalog for models` loop of
parser.py lines 144–148: one warning per working-set model whose
`unique_id` is missing from the catalog. -/
def catalog_miss_warnings (catalog_nodes : List (String × DbtCatalogNode))
    (adapter_type : String) (dbt_models : List DbtModel) : List String :=
  (dbt_models.filter (fun m => (alistGet catalog_nodes m.unique_id).isNone)).map
    (fun m => s!"Model {m.unique_id} not found in catalog. No looker view will be generated. Check if model has materialized in {adapter_type} at {m.relation_name}")

/-- `parse_typed_models` in parser.py (the resolver), over already-typed
manifest and catalog values (the raw-dict-to-typed step is the
construction modelled by the `mk…` functions above; constructing the same
raw manifest twice, as lines 101/102 do, yields equal values). -/
def parse_typed_models (manifest : DbtManifest) (catalog : DbtCatalog)
    (dbt_project_name : String) (tag : Option String) :
    Except ResolveError (List DbtModel) := do
  let catalog_nodes := catalog.nodes
  let dbt_models ← parse_models manifest tag
  let typed_dbt_exposures ← parse_exposures manifest tag
  let exposure_model_views ← collect_exposure_model_views typed_dbt_exposures
  let (_manifest2, exposure_nodes) ←
    resolve_exposure_nodes manifest exposure_model_views dbt_project_name
  let dbt_models := dbt_models ++ exposure_nodes
  let dbt_typed_models :=
    (dbt_models.filter (fun model => (alistGet catalog_nodes model.unique_id).isSome)).map
      (fun model => enrich_model catalog_nodes model)
  Except.ok dbt_typed_models

/-- The model-discovery phase of `parse_typed_models` in isolation
(parser.py lines 103–121): tag-filtered exposure parsing followed by the
accumulation of referenced model names. -/
def discovered_views (manifest : DbtManifest) (tag : Option String) :
    Except ResolveError (List String) := do
  let typed_dbt_exposures ← parse_exposures manifest tag
  collect_exposure_model_views typed_dbt_exposures

/-- A degenerate but constructible exposure: every field present, but its
metadata block was given without a `looker` entry, so pydantic's implicit
`None` default applies. -/
def lookerlessExposure : DbtExposure :=
  { unique_id := "exposure.proj.dash", name := "dash", description := "",
    tags := [], depends_on := { macros := [], nodes := [] }, meta := {},
    original_file_path := "models/dash.yml", path := "dash.yml", root_path := "/" }

/-- A raw column whose mapping key (`"Amount_USD"` below) differs from its
own `name` field — pydantic accepts such input. -/
def mismatchedRawColumn : DbtModelColumn :=
  { name := "Total_Amount", description := "", meta := {} }

/-! ## A concrete scenario (used by counterexamples and witnesses) -/

/-- A typed column `id` as it sits in a parsed model (already normalized). -/
def idColumn : DbtModelColumn := { name := "id", description := "", meta := {} }

/-- Concrete model `orders`, tagged `finance`, present in the catalog. -/
def ordersModel : DbtModel :=
  { unique_id := "model.proj.orders", relation_name := "db.sch.orders",
    db_schema := "sch", name := "orders", description := "",
    columns := [("id", idColumn)], tags := ["finance"], meta := {} }

/-- Concrete model `customers`, untagged, present in the catalog. -/
def customersModel : DbtModel :=
  { unique_id := "model.proj.customers", relation_name := "db.sch.customers",
    db_schema := "sch", name := "customers", description := "",
    columns := [("id", idColumn)], tags := [], meta := {} }

/-- Concrete model `ghost`, in the manifest but absent from the catalog. -/
def ghostModel : DbtModel :=
  { unique_id := "model.proj.ghost", relation_name := "db.sch.ghost",
    db_schema := "sch", name := "ghost", description := "",
    columns := [("id", idColumn)], tags := [], meta := {} }

/-- Concrete exposure, tagged `finance`, centered on `orders` and joining
`customers`. -/
def dashExposure : DbtExposure :=
  { unique_id := "exposure.proj.dash2", name := "dash2", description := "",
    tags := ["finance"], depends_on := { macros := [], nodes := [] },
    meta := { looker := some (
      { main_model := "ref('orders')",
        joins := some [{ join := "customers",
                         sql_on := "\x7bref('orders').id\x7d = \x7bref('customers').id\x7d" }] }) },
    original_file_path := "models/dash2.yml", path := "dash2.yml", root_path := "/" }

/-- Concrete manifest holding the three models and the exposure. -/
def sampleManifest : DbtManifest :=
  { nodes := [("model.proj.orders", ManifestNode.model ordersModel),
              ("model.proj.customers", ManifestNode.model customersModel),
              ("model.proj.ghost", ManifestNode.model ghostModel)],
    exposures := [("exposure.proj.dash2", ExposureNode.exposure dashExposure)],
    metadata := { adapter_type := "bigquery" } }

/-- Concrete catalog: `orders` and `customers` materialized, `ghost` not. -/
def sampleCatalog : DbtCatalog :=
  { nodes := [("model.proj.orders",
       { metadata := { type := "table", db_schema := "sch", name := "orders" },
         columns := [("id", { type := "INT64", index := 1, name := "id" })] }),
     ("model.proj.customers",
       { metadata := { type := "table", db_schema := "sch", name := "customers" },
         columns := [("id", { type := "STRING", index := 1, name := "id" })] })] }

/-- `ordersModel` with its explorer flag cleared by the discovery step. -/
def markedOrders : DbtModel := { ordersModel with create_explorer := false }

/-- `customersModel` with its explorer flag cleared by the discovery step. -/
def markedCustomers : DbtModel := { customersModel with create_explorer := false }

/-- `sampleManifest` after the discovery step processed `["orders"]`. -/
def ordersMarkedManifest : DbtManifest :=
  { sampleManifest with nodes :=
      [("model.proj.orders", ManifestNode.model markedOrders),
       ("model.proj.customers", ManifestNode.model customersModel),
       ("model.proj.ghost", ManifestNode.model ghostModel)] }

/-- `sampleManifest` after the discovery step processed
`["orders", "customers"]`. -/
def bothMarkedManifest : DbtManifest :=
  { sampleManifest with nodes :=
      [("model.proj.orders", ManifestNode.model markedOrders),
       ("model.proj.customers", ManifestNode.model markedCustomers),
       ("model.proj.ghost", ManifestNode.model ghostModel)] }

/-! ## Helper lemmas -/

/-- Unfolding equation for `raise_error_context` with the `attach`
bookkeeping of the termination argument removed. -/
theorem raise_error_context_eq (msg : String) (apath : List String)
    (spath : List Nat) (ctx : List ValidationError) (offset : String) :
    raise_error_context (.mk msg apath spath ctx) offset
      = ((ctx.mergeSort (fun a b => pathLe a.schema_path b.schema_path)).map
          (fun c => raise_error_context c (offset ++ "  "))).flatten
        ++ [error_context_line offset msg apath
            (ctx.mergeSort (fun a b => pathLe a.schema_path b.schema_path))] := by
  rw [raise_error_context]
  congr 1
  congr 1
  exact List.attach_map_val _ (fun c => raise_error_context c (offset ++ "  "))

/-- C8 (code bug): the validator does fail with the single aggregate
"Failed to parse dbt manifest.json" error if and only if at least one
violation was found, and returns `true` exactly when there are none — but
it does NOT report every structural violation: the `for` loop of
`raise_error_context` (parser.py line 26) rebinds the name `error`, so for
a violation with nested sub-causes (the `oneOf`/`anyOf` case) the trailing
log line repeats the last sorted sub-error's path and message, and the
parent violation's own message never appears in the log.  Evaluated at a
concrete violation with one sub-cause, the log holds the child's line twice
and the parent's line nowhere. -/
theorem validate_manifest_shadowing_divergence :
    (∀ errors : List ValidationError,
      ((validate_manifest errors).2 = Except.ok true ↔ errors = []) ∧
      ((validate_manifest errors).2
          = Except.error (.valueError "Failed to parse dbt manifest.json")
        ↔ errors ≠ [])) ∧
    (validate_manifest [parentOneOfViolation]).1
      = ["  Error in manifest at models.ghost: child type mismatch",
         "Error in manifest at models.ghost: child type mismatch"] ∧
    (∀ line ∈ (validate_manifest [parentOneOfViolation]).1,
      line ≠ "Error in manifest at models: parent oneOf mismatch") := by
  have hchild : raise_error_context childTypeViolation "  "
      = ["  Error in manifest at models.ghost: child type mismatch"] := by
    show raise_error_context
      (ValidationError.mk "child type mismatch" ["models", "ghost"] [1] []) "  " = _
    rw [raise_error_context_eq]
    simp only [List.mergeSort_nil, List.map_nil, List.flatten_nil,
      List.nil_append]
    rfl
  have hoffs : ("" ++ "  " : String) = "  " := rfl
  have hparent : raise_error_context parentOneOfViolation ""
      = ["  Error in manifest at models.ghost: child type mismatch",
         "Error in manifest at models.ghost: child type mismatch"] := by
    show raise_error_context
      (ValidationError.mk "parent oneOf mismatch" ["models"] [0]
        [childTypeViolation]) "" = _
    rw [raise_error_context_eq]
    simp only [List.mergeSort_singleton, List.map_cons, List.map_nil,
      List.flatten_cons, List.flatten_nil, List.append_nil, hoffs, hchild]
    rfl
  have hlog : (validate_manifest [parentOneOfViolation]).1
      = ["  Error in manifest at models.ghost: child type mismatch",
         "Error in manifest at models.ghost: child type mismatch"] := by
    show (List.map (fun e => raise_error_context e "")
      [parentOneOfViolation]).flatten = _
    simp only [List.map_cons, List.map_nil, List.flatten_cons,
      List.flatten_nil, List.append_nil, hparent]
  refine ⟨?_, hlog, ?_⟩
  · intro errors
    constructor
    · rw [validate_manifest]
      by_cases h : errors.isEmpty
      · simp [h, List.isEmpty_iff.mp h]
      · simp only [h, if_false, Bool.false_eq_true]
        constructor
        · intro hc; cases hc
        · intro hc; exact absurd (List.isEmpty_iff.mpr hc) (by simp [h])
    · rw [validate_manifest]
      by_cases h : errors.isEmpty
      · simp [h, List.isEmpty_iff.mp h]
      · simp only [h, if_false, Bool.false_eq_true]
        constructor
        · intro _; exact fun hc => absurd (List.isEmpty_iff.mpr hc) (by simp [h])
        · intro _; trivial
  · intro line hline
    rw [hlog] at hline
    simp only [List.mem_cons, List.not_mem_nil, or_false] at hline
    rcases hline with rfl | rfl <;> decide

/-- C9: For every measure definition, construction succeeds when every entry
of its `filters` list contains exactly one key (and the constructed measure
stores that list), and construction fails when any entry contains zero or
two or more keys. -/
theorem measure_filters_singular_construction
    (type : LookerAggregateMeasures) (fs : List (List (String × String)))
    (description sql : Option String) (vfn : Option LookerValueFormatName) :
    ((∀ f ∈ fs, f.length = 1) →
      mkDbt2LookerMeasure type (some fs) description sql vfn
        = Except.ok { type := type, filters := some fs, description := description,
                      sql := sql, value_format_name := vfn }) ∧
    ((∃ f ∈ fs, f.length ≠ 1) →
      mkDbt2LookerMeasure type (some fs) description sql vfn
        = Except.error (.valueError
            "Multiple filter names provided for a single filter in measure block")) := by
  constructor
  · intro h
    have hall : fs.all (fun f => f.length == 1) = true := by
      rw [List.all_eq_true]
      intro f hf
      simpa using h f hf
    simp [mkDbt2LookerMeasure, filters_are_singular_dicts, hall, Bind.bind, Except.bind]
  · rintro ⟨f, hf, hlen⟩
    have hall : fs.all (fun f => f.length == 1) = false := by
      rw [Bool.eq_false_iff]
      intro hc
      rw [List.all_eq_true] at hc
      exact hlen (by simpa using hc f hf)
    simp [mkDbt2LookerMeasure, filters_are_singular_dicts, hall, Bind.bind, Except.bind]

/-- Witness for C9 at concrete inputs: a singleton-entry filter list
constructs, a two-key entry fails. -/
theorem measure_filters_singular_construction_witness :
    (mkDbt2LookerMeasure .sum (some [[("a", "b")], [("c", "d")]]) none none none
      = Except.ok { type := .sum, filters := some [[("a", "b")], [("c", "d")]],
                    description := none, sql := none, value_format_name := none }) ∧
    (mkDbt2LookerMeasure .sum (some [[("a", "b"), ("c", "d")]]) none none none
      = Except.error (.valueError
          "Multiple filter names provided for a single filter in measure block")) :=
  ⟨(measure_filters_singular_construction .sum [[("a", "b")], [("c", "d")]] none none none).1
      (by decide),
   (measure_filters_singular_construction .sum [[("a", "b"), ("c", "d")]] none none none).2
      ⟨[("a", "b"), ("c", "d")], by decide, by decide⟩⟩

/-- Counterexample to C3: a successfully constructed `DbtExposure` whose
metadata block has a null `looker` (hence no `main_model` at all), on which
the resolver's step-5 dereference of `exposure.meta.looker.main_model`
fails with an `AttributeError` instead of never failing. -/
theorem exposure_null_looker_counterexample :
    lookerlessExposure.meta.looker = none ∧
    collect_exposure_model_views [lookerlessExposure]
      = Except.error (.attributeError "NoneType object has no attribute main_model") := by
  constructor <;> rfl

/-- C3 (amended): a model-level metadata block's `looker` is optional and
defaults to null, so a constructed Exposure need not resolve to a non-null
`looker.main_model`; the step-5 dereference raises an `AttributeError`
precisely on exposures whose `meta.looker` is null, and when `meta.looker`
is non-null its `main_model` is a required string and the dereference never
raises an `AttributeError` (any failure there is a raised `Exception` about
the reference shape). -/
theorem exposure_looker_main_model_amended (views : List String) (e : DbtExposure) :
    (e.meta.looker = none →
      collect_from_exposure views e
        = Except.error (.attributeError "NoneType object has no attribute main_model")) ∧
    (∀ l, e.meta.looker = some l →
      ∀ msg, collect_from_exposure views e ≠ Except.error (.attributeError msg)) := by
  constructor
  · intro h
    rw [collect_from_exposure, h]
  · intro l hl msg
    rw [collect_from_exposure, hl]
    cases href : extract_all_refs l.main_model with
    | none => simp [href]
    | some refs =>
      cases refs with
      | nil => simp [href]
      | cons first rest =>
        cases hj : l.joins with
        | none => simp [href, hj]
        | some joins =>
          by_cases hje : joins.isEmpty
          · simp [href, hj, hje]
          · cases hfind : joins.find? (fun j => extract_all_refs j.sql_on == none) with
            | none => simp [href, hj, hje, hfind]
            | some j => simp [href, hj, hje, hfind]

/-- Witness for C3 (amended) at concrete inputs: the null-`looker` branch at
`lookerlessExposure`, the non-null branch at an exposure with a `looker`
block. -/
theorem exposure_looker_main_model_amended_witness :
    (collect_from_exposure [] lookerlessExposure
      = Except.error (.attributeError "NoneType object has no attribute main_model")) ∧
    (∀ msg, collect_from_exposure []
        { lookerlessExposure with
          meta := { looker := some { main_model := "ref('orders')" } } }
      ≠ Except.error (.attributeError msg)) :=
  ⟨(exposure_looker_main_model_amended [] lookerlessExposure).1 rfl,
   (exposure_looker_main_model_amended []
      { lookerlessExposure with
        meta := { looker := some { main_model := "ref('orders')" } } }).2
      { main_model := "ref('orders')" } rfl⟩

/-- Counterexample to C4: a successfully constructed `DbtModel` in which a
key of the columns mapping (the lower-cased raw key `"amount_usd"`) is not
the lower-cased form of the mapped column's own `name` field
(`"total_amount"`): the validator lowers the raw key and the name
independently, it does not re-key the map by the name. -/
theorem columns_key_vs_name_counterexample :
    ¬ (∀ kv ∈ (mkDbtModel "model.proj.m" "db.sch.m" "sch" "m" ""
          [("Amount_USD", mismatchedRawColumn)] [] {}).columns,
        kv.1 = str_lower kv.2.name ∧ kv.2.name = str_lower kv.2.name) := by
  intro h
  have := (h ("amount_usd",
    { mismatchedRawColumn with name := "total_amount" }) (by decide)).1
  exact absurd this (by decide)

/-- C4 (amended): at construction time (and only there) every key of the
columns mapping of a Model or CatalogNode is replaced by the lower-cased
form of the raw key and every column's `name` field by the lower-cased form
of the raw name; consequently each key equals the lower-cased form of the
mapped column's own name whenever each raw key equals its column's raw
`name` (as in dbt-produced documents), but not in general. -/
theorem columns_lowercased_amended
    (u r s n d : String) (cols : List (String × DbtModelColumn))
    (tags : List String) (meta : DbtModelMeta) (ce : Bool)
    (md : DbtCatalogNodeMetadata) (ccols : List (String × DbtCatalogNodeColumn)) :
    ((mkDbtModel u r s n d cols tags meta ce).columns
      = cols.map (fun kv => (str_lower kv.1, { kv.2 with name := str_lower kv.2.name }))) ∧
    ((mkDbtCatalogNode md ccols).columns
      = ccols.map (fun kv => (str_lower kv.1, { kv.2 with name := str_lower kv.2.name }))) ∧
    ((∀ kv ∈ cols, kv.1 = kv.2.name) →
      ∀ kv ∈ (mkDbtModel u r s n d cols tags meta ce).columns,
        ∃ kv0 ∈ cols, kv.1 = str_lower kv0.2.name ∧ kv.2.name = str_lower kv0.2.name
          ∧ kv.1 = kv.2.name) ∧
    ((∀ kv ∈ ccols, kv.1 = kv.2.name) →
      ∀ kv ∈ (mkDbtCatalogNode md ccols).columns,
        ∃ kv0 ∈ ccols, kv.1 = str_lower kv0.2.name ∧ kv.2.name = str_lower kv0.2.name
          ∧ kv.1 = kv.2.name) := by
  refine ⟨rfl, rfl, ?_, ?_⟩
  · intro h kv hkv
    rw [mkDbtModel] at hkv
    simp only [case_insensitive_column_names, List.mem_map] at hkv
    obtain ⟨kv0, hkv0, heq⟩ := hkv
    refine ⟨kv0, hkv0, ?_, ?_, ?_⟩
    · rw [← heq]; exact congrArg str_lower (h kv0 hkv0)
    · rw [← heq]
    · rw [← heq]; exact congrArg str_lower (h kv0 hkv0)
  · intro h kv hkv
    rw [mkDbtCatalogNode] at hkv
    simp only [catalog_case_insensitive_column_names, List.mem_map] at hkv
    obtain ⟨kv0, hkv0, heq⟩ := hkv
    refine ⟨kv0, hkv0, ?_, ?_, ?_⟩
    · rw [← heq]; exact congrArg str_lower (h kv0 hkv0)
    · rw [← heq]
    · rw [← heq]; exact congrArg str_lower (h kv0 hkv0)

/-- Witness for C4 (amended) at a concrete input whose raw keys equal the
raw column names. -/
theorem columns_lowercased_amended_witness :
    ((mkDbtModel "model.proj.m" "db.sch.m" "sch" "m" ""
        [("Total_Amount", mismatchedRawColumn)] [] {}).columns
      = [("total_amount", { mismatchedRawColumn with name := "total_amount" })]) ∧
    (∀ kv ∈ (mkDbtModel "model.proj.m" "db.sch.m" "sch" "m" ""
        [("Total_Amount", mismatchedRawColumn)] [] {}).columns,
      ∃ kv0 ∈ [("Total_Amount", mismatchedRawColumn)],
        kv.1 = str_lower kv0.2.name ∧ kv.2.name = str_lower kv0.2.name ∧ kv.1 = kv.2.name) := by
  have h := columns_lowercased_amended "model.proj.m" "db.sch.m" "sch" "m" ""
    [("Total_Amount", mismatchedRawColumn)] [] {} true
    { type := "table", db_schema := "sch", name := "m" } []
  exact ⟨by decide, h.2.2.1 (by decide)⟩

/-- Success of a bind in the `Except` monad splits into successes. -/
theorem except_bind_ok {ε α β : Type} (x : Except ε α) (f : α → Except ε β) (b : β) :
    (x >>= f) = Except.ok b ↔ ∃ a, x = Except.ok a ∧ f a = Except.ok b := by
  cases x <;> simp [Bind.bind, Except.bind]

theorem alistGet_set_ne {nodes : List (String × ManifestNode)} {key key' : String}
    (n : ManifestNode) (h : key' ≠ key) :
    alistGet (setManifestNode nodes key n) key' = alistGet nodes key' := by
  induction nodes with
  | nil => rfl
  | cons kv rest ih =>
    simp only [setManifestNode, List.map_cons]
    by_cases hk : kv.1 == key
    · have hkey : kv.1 = key := by simpa using hk
      simp only [hk, if_true, alistGet]
      have : (kv.1 == key') = false := by
        simp [hkey]; exact fun hc => h hc.symm
      simp only [this, Bool.false_eq_true, if_false]
      simpa [setManifestNode] using ih
    · simp only [hk, Bool.false_eq_true, if_false, alistGet]
      by_cases hk' : kv.1 == key'
      · simp [hk']
      · simp only [hk', Bool.false_eq_true, if_false]
        simpa [setManifestNode] using ih

theorem alistGet_set_self {nodes : List (String × ManifestNode)} {key : String}
    (n : ManifestNode) (h : (alistGet nodes key).isSome) :
    alistGet (setManifestNode nodes key n) key = some n := by
  induction nodes with
  | nil => simp [alistGet] at h
  | cons kv rest ih =>
    simp only [setManifestNode, List.map_cons]
    by_cases hk : kv.1 == key
    · simp [hk, alistGet]
    · simp only [hk, Bool.false_eq_true, if_false, alistGet]
      simp only [alistGet, hk, Bool.false_eq_true, if_false] at h
      simpa [setManifestNode] using ih h

theorem alistGet_set_none {nodes : List (String × ManifestNode)} {key key' : String}
    (n : ManifestNode) (h : alistGet nodes key' = none) :
    alistGet (setManifestNode nodes key n) key' = none := by
  induction nodes with
  | nil => rfl
  | cons kv rest ih =>
    simp only [alistGet] at h
    by_cases hk' : kv.1 == key'
    · simp [hk'] at h
    · simp only [hk', Bool.false_eq_true, if_false] at h
      simp only [setManifestNode, List.map_cons]
      by_cases hk : kv.1 == key
      · have hkey : kv.1 = key := by simpa using hk
        simp only [hk, if_true, alistGet, hk', Bool.false_eq_true, if_false]
        simpa [setManifestNode] using ih h
      · simp only [hk, Bool.false_eq_true, if_false, alistGet, hk', if_false]
        simpa [setManifestNode] using ih h

theorem string_append_left_cancel {s a b : String} (h : s ++ a = s ++ b) :
    a = b := by
  have hd := congrArg String.data h
  simp only [String.data_append] at hd
  have := List.append_cancel_left hd
  cases a; cases b; exact congrArg String.mk this

theorem model_lookup_key_inj (proj : String) {a b : String}
    (h : model_lookup_key proj a = model_lookup_key proj b) : a = b := by
  simp only [model_lookup_key, String.append_assoc] at h
  exact string_append_left_cancel (string_append_left_cancel
    (string_append_left_cancel h))

/-- Decomposition of a successful `parse_typed_models` run into its stages. -/
theorem parse_typed_models_ok {manifest : DbtManifest} {catalog : DbtCatalog}
    {proj : String} {tag : Option String} {out : List DbtModel}
    (h : parse_typed_models manifest catalog proj tag = Except.ok out) :
    ∃ dms es views man2 enodes,
      parse_models manifest tag = Except.ok dms ∧
      parse_exposures manifest tag = Except.ok es ∧
      collect_exposure_model_views es = Except.ok views ∧
      resolve_exposure_nodes manifest views proj = Except.ok (man2, enodes) ∧
      out = ((dms ++ enodes).filter
          (fun m => (alistGet catalog.nodes m.unique_id).isSome)).map
          (fun m => enrich_model catalog.nodes m) := by
  rw [parse_typed_models] at h
  rw [except_bind_ok] at h
  obtain ⟨dms, h1, h⟩ := h
  rw [except_bind_ok] at h
  obtain ⟨es, h2, h⟩ := h
  rw [except_bind_ok] at h
  obtain ⟨views, h3, h⟩ := h
  rw [except_bind_ok] at h
  obtain ⟨⟨man2, enodes⟩, h4, h⟩ := h
  refine ⟨dms, es, views, man2, enodes, h1, h2, h3, h4, ?_⟩
  exact (Except.ok.inj h).symm

/-- Composition of successful stages into a successful `parse_typed_models`. -/
theorem parse_typed_models_of_stages {manifest : DbtManifest} {catalog : DbtCatalog}
    {proj : String} {tag : Option String} {dms : List DbtModel}
    {es : List DbtExposure} {views : List String} {man2 : DbtManifest}
    {enodes : List DbtModel}
    (h1 : parse_models manifest tag = Except.ok dms)
    (h2 : parse_exposures manifest tag = Except.ok es)
    (h3 : collect_exposure_model_views es = Except.ok views)
    (h4 : resolve_exposure_nodes manifest views proj = Except.ok (man2, enodes)) :
    parse_typed_models manifest catalog proj tag
      = Except.ok (((dms ++ enodes).filter
          (fun m => (alistGet catalog.nodes m.unique_id).isSome)).map
          (fun m => enrich_model catalog.nodes m)) := by
  simp only [parse_typed_models, h1, h2, h3, h4, Bind.bind, Except.bind]

/-- A failing discovery lookup fails the whole `parse_typed_models` run. -/
theorem parse_typed_models_of_resolve_error {manifest : DbtManifest}
    {catalog : DbtCatalog} {proj : String} {tag : Option String}
    {dms : List DbtModel} {es : List DbtExposure} {views : List String}
    {msg : ResolveError}
    (h1 : parse_models manifest tag = Except.ok dms)
    (h2 : parse_exposures manifest tag = Except.ok es)
    (h3 : collect_exposure_model_views es = Except.ok views)
    (h4 : resolve_exposure_nodes manifest views proj = Except.error msg) :
    parse_typed_models manifest catalog proj tag = Except.error msg := by
  simp only [parse_typed_models, h1, h2, h3, h4, Bind.bind, Except.bind]

/-- The fold of the discovery loop only appends to the accumulated
`exposure_nodes`. -/
theorem resolve_fold_acc_mono (proj : String) :
    ∀ (views : List String) (man : DbtManifest) (acc : List DbtModel)
      (man2 : DbtManifest) (enodes : List DbtModel),
      views.foldlM (resolve_one_exposure_model proj) (man, acc)
        = Except.ok (man2, enodes) →
      ∀ x ∈ acc, x ∈ enodes := by
  intro views
  induction views with
  | nil =>
    intro man acc man2 enodes h x hx
    simp only [List.foldlM_nil, pure, Except.pure, Except.ok.injEq,
      Prod.mk.injEq] at h
    rw [← h.2]
    exact hx
  | cons w vs ih =>
    intro man acc man2 enodes h x hx
    simp only [List.foldlM_cons] at h
    cases hk : alistGet man.nodes (model_lookup_key proj w) with
    | none =>
      simp [resolve_one_exposure_model, hk, Bind.bind, Except.bind] at h
    | some node =>
      cases node with
      | node n =>
        simp [resolve_one_exposure_model, hk, Bind.bind, Except.bind] at h
      | model m =>
        simp only [resolve_one_exposure_model, hk, Bind.bind, Except.bind] at h
        exact ih _ _ _ _ h x (List.mem_append_left _ hx)

/-- If some discovered view's qualified key is absent from the (current)
node mapping, the discovery loop fails. -/
theorem resolve_fold_absent (proj : String) :
    ∀ (views : List String) (man : DbtManifest) (acc : List DbtModel),
      (∃ v ∈ views, alistGet man.nodes (model_lookup_key proj v) = none) →
      ∃ msg, views.foldlM (resolve_one_exposure_model proj) (man, acc)
        = Except.error msg := by
  intro views
  induction views with
  | nil =>
    rintro man acc ⟨v, hv, -⟩
    cases hv
  | cons w vs ih =>
    rintro man acc ⟨v, hv, hnone⟩
    simp only [List.foldlM_cons]
    cases hk : alistGet man.nodes (model_lookup_key proj w) with
    | none =>
      refine ⟨.exception (toString "Exposure join.sql_on model "
          ++ toString (model_lookup_key proj w) ++ toString " missing"), ?_⟩
      simp only [resolve_one_exposure_model, hk, Bind.bind, Except.bind]
    | some node =>
      cases node with
      | node n =>
        refine ⟨.valueError "DbtNode object has no field create_explorer", ?_⟩
        simp only [resolve_one_exposure_model, hk, Bind.bind, Except.bind]
      | model m =>
        rcases List.mem_cons.mp hv with rfl | hv'
        · rw [hk] at hnone
          cases hnone
        · have hnone' : alistGet (setManifestNode man.nodes (model_lookup_key proj w) (ManifestNode.model { m with create_explorer := false })) (model_lookup_key proj v) = none :=
            alistGet_set_none _ hnone
          obtain ⟨msg, hmsg⟩ := ih
            { man with nodes := setManifestNode man.nodes (model_lookup_key proj w) (ManifestNode.model { m with create_explorer := false }) }
            (acc ++ [{ m with create_explorer := false }]) ⟨v, hv', hnone'⟩
          refine ⟨msg, ?_⟩
          simp only [resolve_one_exposure_model, hk, Bind.bind, Except.bind]
          exact hmsg

/-- `Forall₂` can be weakened pointwise using membership of the left list. -/
theorem forall₂_imp_of_mem {α β : Type} {R S : α → β → Prop} :
    ∀ {l1 : List α} {l2 : List β},
      List.Forall₂ R l1 l2 → (∀ a ∈ l1, ∀ b, R a b → S a b) →
      List.Forall₂ S l1 l2 := by
  intro l1 l2 hf
  induction hf with
  | nil => exact fun _ => .nil
  | cons hr _ ih =>
    intro h
    exact .cons (h _ (List.mem_cons_self _ _) _ hr)
      (ih (fun a ha b hr' => h a (List.mem_cons_of_mem _ ha) b hr'))

/-- When every discovered view resolves to a model node, the discovery loop
succeeds, appends one flag-cleared copy of each found model in order, and
nothing else. -/
theorem resolve_fold_ok (proj : String) :
    ∀ (views : List String) (man : DbtManifest) (acc : List DbtModel),
      views.Nodup →
      (∀ v ∈ views, ∃ m, alistGet man.nodes (model_lookup_key proj v)
        = some (ManifestNode.model m)) →
      ∃ man2 enodes,
        views.foldlM (resolve_one_exposure_model proj) (man, acc)
          = Except.ok (man2, acc ++ enodes) ∧
        List.Forall₂ (fun v (n : DbtModel) =>
          ∃ m, alistGet man.nodes (model_lookup_key proj v)
              = some (ManifestNode.model m) ∧ n = { m with create_explorer := false })
          views enodes := by
  intro views
  induction views with
  | nil =>
    intro man acc _ _
    exact ⟨man, [], by simp [List.foldlM_nil, pure, Except.pure], List.Forall₂.nil⟩
  | cons w vs ih =>
    intro man acc hnd hall
    obtain ⟨m, hm⟩ := hall w (List.mem_cons_self w vs)
    have hne : ∀ v ∈ vs, model_lookup_key proj v ≠ model_lookup_key proj w := by
      intro v hv heq
      exact (List.nodup_cons.mp hnd).1 (model_lookup_key_inj proj heq ▸ hv)
    have hpres : ∀ v ∈ vs,
        alistGet (setManifestNode man.nodes (model_lookup_key proj w) (ManifestNode.model { m with create_explorer := false })) (model_lookup_key proj v)
          = alistGet man.nodes (model_lookup_key proj v) := by
      intro v hv
      exact alistGet_set_ne _ (hne v hv)
    have hall' : ∀ v ∈ vs, ∃ mm,
        alistGet (setManifestNode man.nodes (model_lookup_key proj w) (ManifestNode.model { m with create_explorer := false })) (model_lookup_key proj v)
          = some (ManifestNode.model mm) := by
      intro v hv
      obtain ⟨mm, hmm⟩ := hall v (List.mem_cons_of_mem _ hv)
      exact ⟨mm, by rw [hpres v hv, hmm]⟩
    obtain ⟨man2, enodes, hfold, hfa⟩ := ih
      { man with nodes := setManifestNode man.nodes (model_lookup_key proj w) (ManifestNode.model { m with create_explorer := false }) }
      (acc ++ [{ m with create_explorer := false }])
      (List.nodup_cons.mp hnd).2 hall'
    refine ⟨man2, { m with create_explorer := false } :: enodes, ?_, ?_⟩
    · simp only [List.foldlM_cons, resolve_one_exposure_model, hm, Bind.bind,
        Except.bind]
      rw [List.append_assoc] at hfold
      exact hfold
    · refine List.Forall₂.cons ⟨m, hm, rfl⟩ ?_
      refine forall₂_imp_of_mem hfa ?_
      rintro v hv n ⟨mm, hmm, hn⟩
      exact ⟨mm, (hpres v hv) ▸ hmm, hn⟩

/-- Keys that are not among the discovered views' qualified keys are left
untouched by the discovery loop. -/
theorem resolve_fold_untouched (proj : String) :
    ∀ (views : List String) (man : DbtManifest) (acc : List DbtModel)
      (man2 : DbtManifest) (enodes : List DbtModel),
      views.foldlM (resolve_one_exposure_model proj) (man, acc)
        = Except.ok (man2, enodes) →
      ∀ key, (∀ v ∈ views, key ≠ model_lookup_key proj v) →
        alistGet man2.nodes key = alistGet man.nodes key := by
  intro views
  induction views with
  | nil =>
    intro man acc man2 enodes h key _
    simp only [List.foldlM_nil, pure, Except.pure, Except.ok.injEq,
      Prod.mk.injEq] at h
    rw [← h.1]
  | cons w vs ih =>
    intro man acc man2 enodes h key hkey
    simp only [List.foldlM_cons] at h
    cases hk : alistGet man.nodes (model_lookup_key proj w) with
    | none => simp [resolve_one_exposure_model, hk, Bind.bind, Except.bind] at h
    | some node =>
      cases node with
      | node n => simp [resolve_one_exposure_model, hk, Bind.bind, Except.bind] at h
      | model m =>
        simp only [resolve_one_exposure_model, hk, Bind.bind, Except.bind] at h
        have h1 := ih _ _ _ _ h key (fun v hv => hkey v (List.mem_cons_of_mem _ hv))
        rw [h1]
        exact alistGet_set_ne _ (hkey w (List.mem_cons_self _ _))

/-- A key already holding a flag-cleared model keeps holding a flag-cleared
model through the discovery loop. -/
theorem resolve_fold_preserves_false (proj : String) :
    ∀ (views : List String) (man : DbtManifest) (acc : List DbtModel)
      (man2 : DbtManifest) (enodes : List DbtModel),
      views.foldlM (resolve_one_exposure_model proj) (man, acc)
        = Except.ok (man2, enodes) →
      ∀ key mX, alistGet man.nodes key = some (ManifestNode.model mX) →
        mX.create_explorer = false →
        ∃ m2, alistGet man2.nodes key = some (ManifestNode.model m2) ∧
          m2.create_explorer = false := by
  intro views
  induction views with
  | nil =>
    intro man acc man2 enodes h key mX hkey hflag
    simp only [List.foldlM_nil, pure, Except.pure, Except.ok.injEq,
      Prod.mk.injEq] at h
    exact ⟨mX, h.1 ▸ hkey, hflag⟩
  | cons w vs ih =>
    intro man acc man2 enodes h key mX hkey hflag
    simp only [List.foldlM_cons] at h
    cases hk : alistGet man.nodes (model_lookup_key proj w) with
    | none => simp [resolve_one_exposure_model, hk, Bind.bind, Except.bind] at h
    | some node =>
      cases node with
      | node n => simp [resolve_one_exposure_model, hk, Bind.bind, Except.bind] at h
      | model m =>
        simp only [resolve_one_exposure_model, hk, Bind.bind, Except.bind] at h
        by_cases hkw : key = model_lookup_key proj w
        · have hset : alistGet (setManifestNode man.nodes (model_lookup_key proj w) (ManifestNode.model { m with create_explorer := false })) key
              = some (ManifestNode.model { m with create_explorer := false }) := by
            rw [hkw]
            exact alistGet_set_self _ (by rw [hk]; rfl)
          exact ih _ _ _ _ h key { m with create_explorer := false } hset rfl
        · have hset : alistGet (setManifestNode man.nodes (model_lookup_key proj w) (ManifestNode.model { m with create_explorer := false })) key
              = some (ManifestNode.model mX) := by
            rw [alistGet_set_ne _ hkw]
            exact hkey
          exact ih _ _ _ _ h key mX hset hflag

/-- After a successful discovery loop, the node mapping holds a
flag-cleared model under every discovered view's qualified key. -/
theorem resolve_fold_marked (proj : String) :
    ∀ (views : List String) (man : DbtManifest) (acc : List DbtModel)
      (man2 : DbtManifest) (enodes : List DbtModel),
      views.foldlM (resolve_one_exposure_model proj) (man, acc)
        = Except.ok (man2, enodes) →
      ∀ v ∈ views, ∃ m2,
        alistGet man2.nodes (model_lookup_key proj v)
          = some (ManifestNode.model m2) ∧ m2.create_explorer = false := by
  intro views
  induction views with
  | nil =>
    intro man acc man2 enodes _ v hv
    cases hv
  | cons w vs ih =>
    intro man acc man2 enodes h v hv
    simp only [List.foldlM_cons] at h
    cases hk : alistGet man.nodes (model_lookup_key proj w) with
    | none => simp [resolve_one_exposure_model, hk, Bind.bind, Except.bind] at h
    | some node =>
      cases node with
      | node n => simp [resolve_one_exposure_model, hk, Bind.bind, Except.bind] at h
      | model m =>
        simp only [resolve_one_exposure_model, hk, Bind.bind, Except.bind] at h
        rcases List.mem_cons.mp hv with rfl | hv'
        · have hset : alistGet (setManifestNode man.nodes (model_lookup_key proj v) (ManifestNode.model { m with create_explorer := false })) (model_lookup_key proj v)
              = some (ManifestNode.model { m with create_explorer := false }) :=
            alistGet_set_self _ (by rw [hk]; rfl)
          exact resolve_fold_preserves_false proj vs _ _ _ _ h _ _ hset rfl
        · exact ih _ _ _ _ h v hv'

/-- Every model found under a discovered view's key (in the original
mapping) is appended, flag-cleared, to the loop's output list. -/
theorem resolve_marked_mem (proj : String) :
    ∀ (views : List String) (man0 man : DbtManifest) (acc : List DbtModel)
      (man2 : DbtManifest) (enodes : List DbtModel),
      (∀ key m0, alistGet man0.nodes key = some (ManifestNode.model m0) →
        alistGet man.nodes key = some (ManifestNode.model m0) ∨
        alistGet man.nodes key
          = some (ManifestNode.model { m0 with create_explorer := false })) →
      views.foldlM (resolve_one_exposure_model proj) (man, acc)
        = Except.ok (man2, enodes) →
      ∀ v ∈ views, ∀ m0,
        alistGet man0.nodes (model_lookup_key proj v)
          = some (ManifestNode.model m0) →
        { m0 with create_explorer := false } ∈ enodes ∨
        { m0 with create_explorer := false } ∈ acc := by
  intro views
  induction views with
  | nil =>
    intro man0 man acc man2 enodes _ _ v hv
    cases hv
  | cons w vs ih =>
    intro man0 man acc man2 enodes hinv h v hv m0 hm0
    simp only [List.foldlM_cons] at h
    cases hk : alistGet man.nodes (model_lookup_key proj w) with
    | none => simp [resolve_one_exposure_model, hk, Bind.bind, Except.bind] at h
    | some node =>
      cases node with
      | node n => simp [resolve_one_exposure_model, hk, Bind.bind, Except.bind] at h
      | model m =>
        simp only [resolve_one_exposure_model, hk, Bind.bind, Except.bind] at h
        have hinv' : ∀ key mk0, alistGet man0.nodes key = some (ManifestNode.model mk0) →
            alistGet (setManifestNode man.nodes (model_lookup_key proj w) (ManifestNode.model { m with create_explorer := false })) key
              = some (ManifestNode.model mk0) ∨
            alistGet (setManifestNode man.nodes (model_lookup_key proj w) (ManifestNode.model { m with create_explorer := false })) key
              = some (ManifestNode.model { mk0 with create_explorer := false }) := by
          intro key mk0 hkey
          by_cases hkw : key = model_lookup_key proj w
          · have hset : alistGet (setManifestNode man.nodes (model_lookup_key proj w) (ManifestNode.model { m with create_explorer := false })) key
                = some (ManifestNode.model { m with create_explorer := false }) := by
              rw [hkw]
              exact alistGet_set_self _ (by rw [hk]; rfl)
            rcases hinv key mk0 hkey with hL | hR
            · right
              rw [hkw] at hL
              rw [hk] at hL
              have hm : m = mk0 := ManifestNode.model.inj (Option.some.inj hL)
              rw [hset, hm]
            · right
              rw [hkw] at hR
              rw [hk] at hR
              have hm : m = { mk0 with create_explorer := false } :=
                ManifestNode.model.inj (Option.some.inj hR)
              rw [hset, hm]
          · rw [alistGet_set_ne _ hkw]
            exact hinv key mk0 hkey
        rcases List.mem_cons.mp hv with rfl | hv'
        · -- the head view: the model appended now is `{ m0 with … := false }`
          have : { m with create_explorer := false }
              = { m0 with create_explorer := false } := by
            rcases hinv (model_lookup_key proj v) m0 hm0 with hL | hR
            · rw [hk] at hL
              rw [ManifestNode.model.inj (Option.some.inj hL)]
            · rw [hk] at hR
              rw [ManifestNode.model.inj (Option.some.inj hR)]
          rw [← this]
          left
          exact resolve_fold_acc_mono proj vs _ _ _ _ h _
            (List.mem_append_right _ (List.mem_singleton_self _))
        · rcases ih man0 _ _ _ _ hinv' h v hv' m0 hm0 with hL | hR
          · exact Or.inl hL
          · rcases List.mem_append.mp hR with hacc | hone
            · exact Or.inr hacc
            · left
              rw [List.mem_singleton.mp hone]
              exact resolve_fold_acc_mono proj vs _ _ _ _ h _
                (List.mem_append_right _ (List.mem_singleton_self _))

theorem set_add_nodup {s : List String} {x : String} (h : s.Nodup) :
    (set_add s x).Nodup := by
  rw [set_add]
  by_cases hc : s.contains x
  · simp only [hc, if_true]
    exact h
  · simp only [hc, Bool.false_eq_true, if_false]
    have hx : x ∉ s := by
      intro hm
      exact hc (List.elem_eq_true_of_mem hm)
    simp [List.nodup_append, h, hx]

theorem foldl_set_add_nodup :
    ∀ (items : List String) (s : List String), s.Nodup →
      (items.foldl set_add s).Nodup := by
  intro items
  induction items with
  | nil => exact fun s h => h
  | cons i is ih => exact fun s h => ih _ (set_add_nodup h)

theorem collect_from_exposure_nodup {views : List String} {e : DbtExposure}
    {views' : List String} (h : views.Nodup)
    (hc : collect_from_exposure views e = Except.ok views') : views'.Nodup := by
  rw [collect_from_exposure] at hc
  cases hl : e.meta.looker with
  | none => simp only [hl] at hc; cases hc
  | some l =>
    simp only [hl] at hc
    cases href : extract_all_refs l.main_model with
    | none => simp only [href] at hc; cases hc
    | some refs =>
      simp only [href] at hc
      cases refs with
      | nil => simp at hc
      | cons first rest =>
        cases hj : l.joins with
        | none =>
          simp only [hj, Except.ok.injEq] at hc
          rw [← hc]
          exact set_add_nodup h
        | some joins =>
          simp only [hj] at hc
          by_cases hje : joins.isEmpty
          · simp only [hje, if_true, Except.ok.injEq] at hc
            rw [← hc]
            exact set_add_nodup h
          · simp only [hje, Bool.false_eq_true, if_false] at hc
            cases hfind : joins.find? (fun j => extract_all_refs j.sql_on == none) with
            | some j => simp only [hfind] at hc; cases hc
            | none =>
              simp only [hfind, Except.ok.injEq] at hc
              rw [← hc]
              exact foldl_set_add_nodup _ _ (set_add_nodup h)

theorem collect_foldlM_nodup :
    ∀ (es : List DbtExposure) (acc : List String) (views : List String),
      acc.Nodup → es.foldlM collect_from_exposure acc = Except.ok views →
      views.Nodup := by
  intro es
  induction es with
  | nil =>
    intro acc views h hf
    simp only [List.foldlM_nil, pure, Except.pure, Except.ok.injEq] at hf
    rw [← hf]
    exact h
  | cons e es ih =>
    intro acc views h hf
    simp only [List.foldlM_cons] at hf
    cases hs : collect_from_exposure acc e with
    | error msg =>
      rw [hs] at hf
      simp [Bind.bind, Except.bind] at hf
    | ok acc' =>
      rw [hs] at hf
      simp only [Bind.bind, Except.bind] at hf
      exact ih acc' views (collect_from_exposure_nodup h hs) hf

/-- The discovered `exposure_model_views` set never holds a name twice. -/
theorem collect_views_nodup {es : List DbtExposure} {views : List String}
    (h : collect_exposure_model_views es = Except.ok views) : views.Nodup :=
  collect_foldlM_nodup es [] views List.nodup_nil h

/-- Counterexample to C2: explorer-flag toggling is in-place mutation.  On a
concrete manifest whose node `model.proj.orders` has `create_explorer =
true`, the discovery step of resolution leaves the parsed manifest mapping
with the *same* node changed to `create_explorer = false`, so a node of the
parsed manifest mapping does not keep its pre-resolution field values. -/
theorem explorer_flag_inplace_counterexample :
    alistGet sampleManifest.nodes "model.proj.orders"
      = some (ManifestNode.model ordersModel) ∧
    ordersModel.create_explorer = true ∧
    resolve_exposure_nodes sampleManifest ["orders"] "proj"
      = Except.ok (ordersMarkedManifest, [markedOrders]) ∧
    alistGet ordersMarkedManifest.nodes "model.proj.orders"
      = some (ManifestNode.model markedOrders) ∧
    alistGet ordersMarkedManifest.nodes "model.proj.orders"
      ≠ alistGet sampleManifest.nodes "model.proj.orders" := by
  refine ⟨rfl, rfl, rfl, rfl, by decide⟩

/-- C2 (amended): catalog-type enrichment is whole-record copy-with-update
(the enriched model value keeps the source model's explorer flag, meta,
tags and id, and no stored value is consumed), but explorer-flag toggling
is in-place on the parsed manifest mapping: after a successful discovery
step every discovered qualified key holds a model with `create_explorer =
false`, while nodes under all other keys keep their pre-resolution
values. -/
theorem explorer_flag_inplace_amended
    (manifest : DbtManifest) (views : List String) (proj : String)
    (man2 : DbtManifest) (enodes : List DbtModel)
    (h : resolve_exposure_nodes manifest views proj = Except.ok (man2, enodes)) :
    (∀ key, (∀ v ∈ views, key ≠ model_lookup_key proj v) →
      alistGet man2.nodes key = alistGet manifest.nodes key) ∧
    (∀ v ∈ views, ∃ m2, alistGet man2.nodes (model_lookup_key proj v)
        = some (ManifestNode.model m2) ∧ m2.create_explorer = false) ∧
    (∀ (cn : List (String × DbtCatalogNode)) (m : DbtModel),
      (enrich_model cn m).create_explorer = m.create_explorer ∧
      (enrich_model cn m).meta = m.meta ∧ (enrich_model cn m).tags = m.tags ∧
      (enrich_model cn m).unique_id = m.unique_id) := by
  refine ⟨?_, ?_, ?_⟩
  · intro key hkey
    exact resolve_fold_untouched proj views manifest [] man2 enodes h key hkey
  · intro v hv
    exact resolve_fold_marked proj views manifest [] man2 enodes h v hv
  · intro cn m
    exact ⟨rfl, rfl, rfl, rfl⟩

/-- Witness for C2 (amended) at the concrete sample manifest with discovered
views `["orders"]`. -/
theorem explorer_flag_inplace_amended_witness :
    (∀ key, (∀ v ∈ ["orders"], key ≠ model_lookup_key "proj" v) →
      alistGet ordersMarkedManifest.nodes key = alistGet sampleManifest.nodes key) ∧
    (∀ v ∈ ["orders"], ∃ m2,
      alistGet ordersMarkedManifest.nodes (model_lookup_key "proj" v)
        = some (ManifestNode.model m2) ∧ m2.create_explorer = false) ∧
    (∀ (cn : List (String × DbtCatalogNode)) (m : DbtModel),
      (enrich_model cn m).create_explorer = m.create_explorer ∧
      (enrich_model cn m).meta = m.meta ∧ (enrich_model cn m).tags = m.tags ∧
      (enrich_model cn m).unique_id = m.unique_id) :=
  explorer_flag_inplace_amended sampleManifest ["orders"] "proj"
    ordersMarkedManifest [markedOrders] rfl

/-- C7: For every model surviving the catalog cross-reference, the resolver
returns a new model instance in which each column's `data_type` equals the
type of the catalog column found by looking up `(catalog_nodes,
model.unique_id, column.name)` — null when the model or column has no
catalog counterpart — while all other column fields and all other model
fields are unchanged; every model of the resolver's output arises this way
from a working-set model present in the catalog. -/
theorem enrichment_copy_update_types
    (catalog_nodes : List (String × DbtCatalogNode)) (model : DbtModel) :
    ((enrich_model catalog_nodes model).columns
      = model.columns.map (fun kv =>
          (kv.2.name, { kv.2 with data_type := get_column_type_from_catalog catalog_nodes model.unique_id kv.2.name }))) ∧
    (∀ kv ∈ (enrich_model catalog_nodes model).columns,
      ∃ kv0 ∈ model.columns,
        kv.2.data_type
            = get_column_type_from_catalog catalog_nodes model.unique_id kv0.2.name ∧
        kv.2.name = kv0.2.name ∧ kv.2.description = kv0.2.description ∧
        kv.2.meta = kv0.2.meta) ∧
    (∀ mid col, alistGet catalog_nodes mid = none →
        get_column_type_from_catalog catalog_nodes mid col = none) ∧
    (∀ mid col node, alistGet catalog_nodes mid = some node →
        alistGet node.columns col = none →
        get_column_type_from_catalog catalog_nodes mid col = none) ∧
    (∀ mid col node c, alistGet catalog_nodes mid = some node →
        alistGet node.columns col = some c →
        get_column_type_from_catalog catalog_nodes mid col = some c.type) ∧
    ((enrich_model catalog_nodes model).unique_id = model.unique_id ∧
     (enrich_model catalog_nodes model).relation_name = model.relation_name ∧
     (enrich_model catalog_nodes model).db_schema = model.db_schema ∧
     (enrich_model catalog_nodes model).name = model.name ∧
     (enrich_model catalog_nodes model).description = model.description ∧
     (enrich_model catalog_nodes model).tags = model.tags ∧
     (enrich_model catalog_nodes model).meta = model.meta ∧
     (enrich_model catalog_nodes model).create_explorer = model.create_explorer) ∧
    (∀ (manifest : DbtManifest) (catalog : DbtCatalog) (proj : String)
        (tag : Option String) (out : List DbtModel),
      parse_typed_models manifest catalog proj tag = Except.ok out →
      ∀ mo ∈ out, ∃ m0, mo = enrich_model catalog.nodes m0 ∧
        (alistGet catalog.nodes m0.unique_id).isSome) := by
  refine ⟨rfl, ?_, ?_, ?_, ?_, ⟨rfl, rfl, rfl, rfl, rfl, rfl, rfl, rfl⟩, ?_⟩
  · intro kv hkv
    simp only [enrich_model, List.mem_map] at hkv
    obtain ⟨kv0, hkv0, heq⟩ := hkv
    exact ⟨kv0, hkv0, by rw [← heq], by rw [← heq], by rw [← heq], by rw [← heq]⟩
  · intro mid col hmid
    simp only [get_column_type_from_catalog, hmid]
  · intro mid col node hmid hcol
    simp only [get_column_type_from_catalog, hmid, hcol]
  · intro mid col node c hmid hcol
    simp only [get_column_type_from_catalog, hmid, hcol]
  · intro manifest catalog proj tag out hok mo hmo
    obtain ⟨dms, es, views, man2, enodes, h1, h2, h3, h4, hout⟩ :=
      parse_typed_models_ok hok
    rw [hout] at hmo
    simp only [List.mem_map, List.mem_filter] at hmo
    obtain ⟨m0, ⟨hm0mem, hm0cat⟩, heq⟩ := hmo
    exact ⟨m0, heq.symm, hm0cat⟩

/-- Witness for C7 at the concrete sample run: the `ghost` model has no
catalog node so its lookup is null, the `orders.id` column resolves to
`INT64`, and an output model of the concrete resolver run is the enrichment
of a catalog-present working-set model. -/
theorem enrichment_copy_update_types_witness :
    get_column_type_from_catalog sampleCatalog.nodes "model.proj.ghost" "id"
      = none ∧
    get_column_type_from_catalog sampleCatalog.nodes "model.proj.orders" "id"
      = some "INT64" ∧
    (∃ m0, enrich_model sampleCatalog.nodes ordersModel
        = enrich_model sampleCatalog.nodes m0 ∧
      (alistGet sampleCatalog.nodes m0.unique_id).isSome) := by
  have h := enrichment_copy_update_types sampleCatalog.nodes ordersModel
  refine ⟨h.2.2.1 "model.proj.ghost" "id" rfl, ?_, ?_⟩
  · exact h.2.2.2.2.1 "model.proj.orders" "id" _ _ rfl rfl
  · exact h.2.2.2.2.2.2 sampleManifest sampleCatalog "proj" none _ rfl
      (enrich_model sampleCatalog.nodes ordersModel) (by decide)

/-- Members of the right list of a `Forall₂` are related to some member of
the left list. -/
theorem forall₂_mem_right {α β : Type} {R : α → β → Prop} :
    ∀ {l1 : List α} {l2 : List β}, List.Forall₂ R l1 l2 →
      ∀ b ∈ l2, ∃ a ∈ l1, R a b := by
  intro l1 l2 hf
  induction hf with
  | nil => intro b hb; cases hb
  | cons hr _ ih =>
    intro b hb
    rcases List.mem_cons.mp hb with rfl | hb'
    · exact ⟨_, List.mem_cons_self _ _, hr⟩
    · obtain ⟨a, ha, hab⟩ := ih b hb'
      exact ⟨a, List.mem_cons_of_mem _ ha, hab⟩

/-- C5: Every discovered model name is looked up in the manifest under the
qualified key `model.<project_name>.<model_name>`; if any such key is
absent the discovery step and the whole run fail; when every key
resolves to a model, the run succeeds, each found model is marked
`create_explorer = false` and appended (in discovery order) to the working
set in addition to — not instead of — the tag-filtered models. -/
theorem discovered_models_qualified_lookup
    (manifest : DbtManifest) (catalog : DbtCatalog) (proj : String)
    (tag : Option String) (dms : List DbtModel) (es : List DbtExposure)
    (views : List String)
    (h1 : parse_models manifest tag = Except.ok dms)
    (h2 : parse_exposures manifest tag = Except.ok es)
    (h3 : collect_exposure_model_views es = Except.ok views) :
    ((∃ v ∈ views, alistGet manifest.nodes (model_lookup_key proj v) = none) →
      ∃ msg, resolve_exposure_nodes manifest views proj = Except.error msg ∧
        parse_typed_models manifest catalog proj tag = Except.error msg) ∧
    ((∀ v ∈ views, ∃ m, alistGet manifest.nodes (model_lookup_key proj v)
        = some (ManifestNode.model m)) →
      ∃ man2 enodes,
        resolve_exposure_nodes manifest views proj = Except.ok (man2, enodes) ∧
        List.Forall₂ (fun v (n : DbtModel) =>
          ∃ m, alistGet manifest.nodes (model_lookup_key proj v)
            = some (ManifestNode.model m) ∧ n = { m with create_explorer := false })
          views enodes ∧
        (∀ n ∈ enodes, n.create_explorer = false) ∧
        parse_typed_models manifest catalog proj tag
          = Except.ok (((dms ++ enodes).filter
              (fun m => (alistGet catalog.nodes m.unique_id).isSome)).map
              (fun m => enrich_model catalog.nodes m))) := by
  constructor
  · intro habs
    obtain ⟨msg, hmsg⟩ := resolve_fold_absent proj views manifest [] habs
    exact ⟨msg, hmsg, parse_typed_models_of_resolve_error h1 h2 h3 hmsg⟩
  · intro hall
    obtain ⟨man2, enodes, hfold, hfa⟩ :=
      resolve_fold_ok proj views manifest [] (collect_views_nodup h3) hall
    rw [List.nil_append] at hfold
    refine ⟨man2, enodes, hfold, hfa, ?_,
      parse_typed_models_of_stages h1 h2 h3 hfold⟩
    intro n hn
    obtain ⟨v, _, m, _, hn'⟩ := forall₂_mem_right hfa n hn
    rw [hn']

/-- Witness for C5 at the concrete sample run (all discovered keys
present): both discovered models resolve, are marked, and are appended
after the tag-selected models. -/
theorem discovered_models_qualified_lookup_witness :
    ∃ man2 enodes,
      resolve_exposure_nodes sampleManifest ["orders", "customers"] "proj"
        = Except.ok (man2, enodes) ∧
      List.Forall₂ (fun v (n : DbtModel) =>
        ∃ m, alistGet sampleManifest.nodes (model_lookup_key "proj" v)
          = some (ManifestNode.model m) ∧ n = { m with create_explorer := false })
        ["orders", "customers"] enodes ∧
      (∀ n ∈ enodes, n.create_explorer = false) ∧
      parse_typed_models sampleManifest sampleCatalog "proj" none
        = Except.ok (((([ordersModel, customersModel, ghostModel] ++ enodes).filter
            (fun m => (alistGet sampleCatalog.nodes m.unique_id).isSome)).map
            (fun m => enrich_model sampleCatalog.nodes m))) :=
  (discovered_models_qualified_lookup sampleManifest sampleCatalog "proj" none
      [ordersModel, customersModel, ghostModel] [dashExposure]
      ["orders", "customers"] rfl rfl rfl).2 (by
    intro v hv
    simp only [List.mem_cons, List.not_mem_nil, or_false] at hv
    rcases hv with rfl | rfl
    · exact ⟨ordersModel, rfl⟩
    · exact ⟨customersModel, rfl⟩)

/-- C6: A working-set model whose `unique_id` is absent from the catalog is
excluded from the returned enriched list with a warning naming it, while the
run still completes; the returned list is exactly the enrichment of the
working-set models whose `unique_id` is present in the catalog. -/
theorem catalog_miss_warns_and_drops
    (manifest : DbtManifest) (catalog : DbtCatalog) (proj : String)
    (tag : Option String) (dms : List DbtModel) (es : List DbtExposure)
    (views : List String) (man2 : DbtManifest) (enodes : List DbtModel)
    (h1 : parse_models manifest tag = Except.ok dms)
    (h2 : parse_exposures manifest tag = Except.ok es)
    (h3 : collect_exposure_model_views es = Except.ok views)
    (h4 : resolve_exposure_nodes manifest views proj = Except.ok (man2, enodes)) :
    parse_typed_models manifest catalog proj tag
      = Except.ok (((dms ++ enodes).filter
          (fun m => (alistGet catalog.nodes m.unique_id).isSome)).map
          (fun m => enrich_model catalog.nodes m)) ∧
    (∀ m ∈ dms ++ enodes, alistGet catalog.nodes m.unique_id = none →
      (∀ mo ∈ ((dms ++ enodes).filter
          (fun m => (alistGet catalog.nodes m.unique_id).isSome)).map
          (fun m => enrich_model catalog.nodes m),
        mo.unique_id ≠ m.unique_id) ∧
      (s!"Model {m.unique_id} not found in catalog. No looker view will be generated. Check if model has materialized in {manifest.metadata.adapter_type} at {m.relation_name}"
        ∈ catalog_miss_warnings catalog.nodes manifest.metadata.adapter_type
            (dms ++ enodes))) ∧
    (∀ m ∈ dms ++ enodes, (alistGet catalog.nodes m.unique_id).isSome →
      enrich_model catalog.nodes m ∈ ((dms ++ enodes).filter
          (fun m => (alistGet catalog.nodes m.unique_id).isSome)).map
          (fun m => enrich_model catalog.nodes m)) := by
  refine ⟨parse_typed_models_of_stages h1 h2 h3 h4, ?_, ?_⟩
  · intro m hm hnone
    constructor
    · intro mo hmo heq
      simp only [List.mem_map, List.mem_filter] at hmo
      obtain ⟨m0, ⟨hm0mem, hm0cat⟩, hmo'⟩ := hmo
      have hid : m0.unique_id = m.unique_id := by
        rw [← heq, ← hmo']
        rfl
      rw [hid, hnone] at hm0cat
      cases hm0cat
    · rw [catalog_miss_warnings]
      refine List.mem_map_of_mem _ ?_
      rw [List.mem_filter]
      exact ⟨hm, by rw [hnone]; rfl⟩
  · intro m hm hsome
    refine List.mem_map_of_mem _ ?_
    rw [List.mem_filter]
    exact ⟨hm, hsome⟩

/-- Witness for C6 at the concrete sample run: `ghost` is in the manifest
and the working set but not in the catalog; it gets a warning and no output
model carries its id, while the run succeeds. -/
theorem catalog_miss_warns_and_drops_witness :
    parse_typed_models sampleManifest sampleCatalog "proj" none
      = Except.ok ((([ordersModel, customersModel, ghostModel]
            ++ [markedOrders, markedCustomers]).filter
          (fun m => (alistGet sampleCatalog.nodes m.unique_id).isSome)).map
          (fun m => enrich_model sampleCatalog.nodes m)) ∧
    (∀ mo ∈ (([ordersModel, customersModel, ghostModel]
          ++ [markedOrders, markedCustomers]).filter
        (fun m => (alistGet sampleCatalog.nodes m.unique_id).isSome)).map
        (fun m => enrich_model sampleCatalog.nodes m),
      mo.unique_id ≠ ghostModel.unique_id) ∧
    ("Model model.proj.ghost not found in catalog. No looker view will be generated. Check if model has materialized in bigquery at db.sch.ghost"
      ∈ catalog_miss_warnings sampleCatalog.nodes "bigquery"
          ([ordersModel, customersModel, ghostModel]
            ++ [markedOrders, markedCustomers])) := by
  have h := catalog_miss_warns_and_drops sampleManifest sampleCatalog "proj" none
    [ordersModel, customersModel, ghostModel] [dashExposure]
    ["orders", "customers"] bothMarkedManifest [markedOrders, markedCustomers]
    rfl rfl rfl rfl
  have hg := h.2.1 ghostModel (by decide) rfl
  exact ⟨h.1, hg.1, hg.2⟩

/-- C10: When a model is both directly selected (e.g. any model when `tag`
is None) and discovered through an exposure's `main_model`/join references,
the resolver's returned list contains two distinct entries for it: the
enrichment of the directly selected instance with `create_explorer = true`,
and the enrichment of a separate flag-cleared instance contributed by
discovery, because the tag-filtered models and the discovered nodes come
from independently constructed manifest instances before concatenation. -/
theorem shared_model_duplicate_entries
    (manifest : DbtManifest) (catalog : DbtCatalog) (proj : String)
    (tag : Option String) (dms : List DbtModel) (es : List DbtExposure)
    (views : List String) (man2 : DbtManifest) (enodes : List DbtModel)
    (m : DbtModel) (v : String)
    (h1 : parse_models manifest tag = Except.ok dms)
    (h2 : parse_exposures manifest tag = Except.ok es)
    (h3 : collect_exposure_model_views es = Except.ok views)
    (h4 : resolve_exposure_nodes manifest views proj = Except.ok (man2, enodes))
    (hm : m ∈ dms) (hce : m.create_explorer = true) (hv : v ∈ views)
    (hkey : alistGet manifest.nodes (model_lookup_key proj v)
      = some (ManifestNode.model m))
    (hcat : (alistGet catalog.nodes m.unique_id).isSome) :
    ∃ out, parse_typed_models manifest catalog proj tag = Except.ok out ∧
      enrich_model catalog.nodes m ∈ out ∧
      enrich_model catalog.nodes { m with create_explorer := false } ∈ out ∧
      (enrich_model catalog.nodes m).create_explorer = true ∧
      (enrich_model catalog.nodes
        { m with create_explorer := false }).create_explorer = false ∧
      enrich_model catalog.nodes m
        ≠ enrich_model catalog.nodes { m with create_explorer := false } ∧
      (enrich_model catalog.nodes m).unique_id
        = (enrich_model catalog.nodes
            { m with create_explorer := false }).unique_id := by
  have hmem : { m with create_explorer := false } ∈ enodes := by
    have hmm := resolve_marked_mem proj views manifest manifest [] man2 enodes
      (fun key m0 h => Or.inl h) h4 v hv m hkey
    rcases hmm with hL | hR
    · exact hL
    · cases hR
  refine ⟨_, parse_typed_models_of_stages h1 h2 h3 h4, ?_, ?_, hce, rfl, ?_, rfl⟩
  · refine List.mem_map_of_mem _ ?_
    rw [List.mem_filter]
    exact ⟨List.mem_append_left _ hm, hcat⟩
  · refine List.mem_map_of_mem _ ?_
    rw [List.mem_filter]
    exact ⟨List.mem_append_right _ hmem, hcat⟩
  · intro hbad
    have h5 : (enrich_model catalog.nodes m).create_explorer = true := hce
    have h6 : (enrich_model catalog.nodes
        { m with create_explorer := false }).create_explorer = false := rfl
    rw [hbad, h6] at h5
    cases h5

/-- Witness for C10 at the concrete sample run: `orders` is directly
selected (tag None) and discovered via the exposure's `main_model`; the
output holds an `orders` entry with the explorer flag set and a separate
one with it cleared. -/
theorem shared_model_duplicate_entries_witness :
    ∃ out, parse_typed_models sampleManifest sampleCatalog "proj" none
        = Except.ok out ∧
      enrich_model sampleCatalog.nodes ordersModel ∈ out ∧
      enrich_model sampleCatalog.nodes
        { ordersModel with create_explorer := false } ∈ out ∧
      (enrich_model sampleCatalog.nodes ordersModel).create_explorer = true ∧
      (enrich_model sampleCatalog.nodes
        { ordersModel with create_explorer := false }).create_explorer = false ∧
      enrich_model sampleCatalog.nodes ordersModel
        ≠ enrich_model sampleCatalog.nodes
            { ordersModel with create_explorer := false } ∧
      (enrich_model sampleCatalog.nodes ordersModel).unique_id
        = (enrich_model sampleCatalog.nodes
            { ordersModel with create_explorer := false }).unique_id :=
  shared_model_duplicate_entries sampleManifest sampleCatalog "proj" none
    [ordersModel, customersModel, ghostModel] [dashExposure]
    ["orders", "customers"] bothMarkedManifest [markedOrders, markedCustomers]
    ordersModel "orders" rfl rfl rfl rfl (by decide) rfl (by decide) rfl rfl

/-- Counterexample to C1: the discovery phase runs over the tag-filtered
exposure list (parser.py line 103 passes `tag` to `parse_exposures`), so on
the concrete sample manifest — whose only exposure carries tag `finance` —
discovery with tag `other` accumulates no model names while discovery with
tag None accumulates `orders` and `customers`: the discovered set does
depend on the tag filter. -/
theorem discovery_tag_filter_counterexample :
    discovered_views sampleManifest (some "other") = Except.ok [] ∧
    discovered_views sampleManifest none = Except.ok ["orders", "customers"] ∧
    ¬(∀ x, x ∈ ([] : List String) ↔ x ∈ ["orders", "customers"]) := by
  refine ⟨rfl, rfl, ?_⟩
  intro h
  exact absurd ((h "orders").mpr (by decide)) (by decide)

theorem exposures_any_node_false {xs : List (String × ExposureNode)}
    (h : ∀ kv ∈ xs, ∃ e, kv.2 = ExposureNode.exposure e) :
    (xs.map Prod.snd).any (fun n => match n with
      | ExposureNode.node _ => true | ExposureNode.exposure _ => false) = false := by
  rw [List.any_eq_false]
  intro n hn
  rw [List.mem_map] at hn
  obtain ⟨kv, hkv, rfl⟩ := hn
  obtain ⟨e, he⟩ := h kv hkv
  rw [he]
  simp

theorem exposures_filter_comm (t : String) :
    ∀ (xs : List (String × ExposureNode)),
      (∀ kv ∈ xs, ∃ e, kv.2 = ExposureNode.exposure e) →
      ((xs.map Prod.snd).filterMap (fun n => match n with
          | ExposureNode.exposure e => some e
          | ExposureNode.node _ => none)).filter
        (fun e => tags_match_exposure t e)
      = ((xs.filter (fun kv => match kv.2 with
          | ExposureNode.exposure e => tags_match_exposure t e
          | ExposureNode.node _ => false)).map Prod.snd).filterMap
          (fun n => match n with
            | ExposureNode.exposure e => some e
            | ExposureNode.node _ => none) := by
  intro xs
  induction xs with
  | nil => intro _; rfl
  | cons kv rest ih =>
    intro h
    obtain ⟨e, he⟩ := h kv (List.mem_cons_self _ _)
    have hrest := ih (fun kv' hkv' => h kv' (List.mem_cons_of_mem _ hkv'))
    by_cases htm : tags_match_exposure t e
    · simpa [he, htm, List.filterMap_map] using hrest
    · simpa [he, htm, List.filterMap_map] using hrest

/-- C1 (amended): discovery processes only the tag-filtered exposures.
When a tag is supplied (and every exposures entry parses as a full
Exposure), the discovered model-name set equals the tag-None discovery over
the manifest restricted to the exposures matching the tag — and can
therefore differ from the tag-None discovery over the full manifest. -/
theorem discovery_tag_filter_amended (manifest : DbtManifest) (t : String)
    (h : ∀ kv ∈ manifest.exposures, ∃ e, kv.2 = ExposureNode.exposure e) :
    discovered_views manifest (some t)
      = discovered_views
          { manifest with exposures := manifest.exposures.filter (fun kv =>
              match kv.2 with
              | ExposureNode.exposure e => tags_match_exposure t e
              | ExposureNode.node _ => false) } none := by
  have hfiltered : ∀ kv ∈ manifest.exposures.filter (fun kv =>
      match kv.2 with
      | ExposureNode.exposure e => tags_match_exposure t e
      | ExposureNode.node _ => false), ∃ e, kv.2 = ExposureNode.exposure e :=
    fun kv hkv => h kv (List.mem_of_mem_filter hkv)
  rw [discovered_views, discovered_views, parse_exposures, parse_exposures]
  simp only [exposures_any_node_false h, exposures_any_node_false hfiltered,
    Bool.false_eq_true, if_false, Bind.bind, Except.bind]
  rw [exposures_filter_comm t manifest.exposures h]

/-- Witness for C1 (amended) at the concrete sample manifest with tag
`finance`. -/
theorem discovery_tag_filter_amended_witness :
    discovered_views sampleManifest (some "finance")
      = discovered_views
          { sampleManifest with exposures := sampleManifest.exposures.filter (fun kv =>
              match kv.2 with
              | ExposureNode.exposure e => tags_match_exposure "finance" e
              | ExposureNode.node _ => false) } none :=
  discovery_tag_filter_amended sampleManifest "finance" (by
    intro kv hkv
    have : kv = ("exposure.proj.dash2", ExposureNode.exposure dashExposure) :=
      List.mem_singleton.mp hkv
    rw [this]
    exact ⟨dashExposure, rfl⟩)
